import Mathlib

/-!
Verification of the value-function update kernel in
`DynamicProgramming/DPPwNumba.ipynb`.

The notebook contains three implementations of the same operation on a
square grid of size `sizek`:

* a naive interpreted double loop (cell 1):
  `for i in range(sizek): for j in range(sizek): Vmat[i, j] = e[i, j] + betafirm * V[j]`;
* a vectorized version (cell 3):
  `VV = np.tile(np.reshape(V, (1, sizek)), (sizek, 1)); Vmat = e + betafirm * VV`;
* a jit-compiled function `VFI_loop(V, e, betafirm, sizek, Vmat)` (cell 5)
  whose body is the same double loop, returning `Vmat`.

Real-valued array entries are modelled as rationals.  Arrays are lists
(vectors) and lists of rows (matrices), mirroring numpy shapes.  Python
loops `for i in range(n)` become structural recursion on the iteration
count, performing iterations in the same order.  A second, fallible
semantics models numpy's behaviour of raising IndexError on an
out-of-bounds integer access, and a state-passing semantics records
which arrays an update writes.
-/

namespace DPPwNumba

/-- Vectors of real values, modelled as lists of rationals. -/
abbrev Vec := List ℚ

/-- Matrices, modelled as lists of rows. -/
abbrev Mat := List (List ℚ)

/-- Reading `V[j]` from a vector (total model; out of range yields 0,
which under the well-formedness hypotheses of the theorems never
happens). -/
def getV (V : Vec) (j : Nat) : ℚ := V.getD j 0

/-- Reading `e[i, j]` from a matrix (total model). -/
def getE (e : Mat) (i j : Nat) : ℚ := (e.getD i []).getD j 0

/-- Writing `Vmat[i, j] = v` (total model; out of range is a no-op,
which under the well-formedness hypotheses never happens). -/
def setEntry (m : Mat) (i j : Nat) (v : ℚ) : Mat :=
  m.set i ((m.getD i []).set j v)

/-- Length of row `i` of a matrix. -/
def rowLen (m : Mat) (i : Nat) : Nat := (m.getD i []).length

/-- Inner loop of the naive update of cell 1:
`for j in range(count): Vmat[i, j] = e[i, j] + betafirm * V[j]`,
iterations performed in order `j = 0, 1, ..., count - 1`. -/
def naiveInner (V : Vec) (e : Mat) (betafirm : ℚ) (i : Nat) : Nat → Mat → Mat
  | 0, Vmat => Vmat
  | j + 1, Vmat =>
      setEntry (naiveInner V e betafirm i j Vmat) i j (getE e i j + betafirm * getV V j)

/-- Outer loop of the naive update of cell 1:
`for i in range(count): for j in range(sizek): ...`. -/
def naiveOuter (V : Vec) (e : Mat) (betafirm : ℚ) (sizek : Nat) : Nat → Mat → Mat
  | 0, Vmat => Vmat
  | i + 1, Vmat => naiveInner V e betafirm i sizek (naiveOuter V e betafirm sizek i Vmat)

/-- The naive interpreted double loop of cell 1, producing the final
contents of the buffer `Vmat`. -/
def naive_update (V : Vec) (e : Mat) (betafirm : ℚ) (sizek : Nat) (Vmat : Mat) : Mat :=
  naiveOuter V e betafirm sizek sizek Vmat

/-- Inner loop of the jit-compiled `VFI_loop` of cell 5; the Python body
is identical to the naive loop of cell 1. -/
def VFIInner (V : Vec) (e : Mat) (betafirm : ℚ) (i : Nat) : Nat → Mat → Mat
  | 0, Vmat => Vmat
  | j + 1, Vmat =>
      setEntry (VFIInner V e betafirm i j Vmat) i j (getE e i j + betafirm * getV V j)

/-- Outer loop of the jit-compiled `VFI_loop` of cell 5. -/
def VFIOuter (V : Vec) (e : Mat) (betafirm : ℚ) (sizek : Nat) : Nat → Mat → Mat
  | 0, Vmat => Vmat
  | i + 1, Vmat => VFIInner V e betafirm i sizek (VFIOuter V e betafirm sizek i Vmat)

/-- The compiled update `VFI_loop(V, e, betafirm, sizek, Vmat)` of cell 5:
runs the double loop and returns `Vmat`.  The `@numba.jit` decorator only
changes the execution strategy, not the sequence of scalar operations. -/
def VFI_loop (V : Vec) (e : Mat) (betafirm : ℚ) (sizek : Nat) (Vmat : Mat) : Mat :=
  VFIOuter V e betafirm sizek sizek Vmat

/-- Models `np.reshape(V, (1, sizek))`: a one-row matrix. -/
def reshapeRow (V : Vec) : Mat := [V]

/-- Models `np.tile(m, (k, 1))`: stack `k` copies of the rows of `m`. -/
def tileRows (m : Mat) (k : Nat) : Mat := (List.replicate k m).flatten

/-- Scalar multiplication `betafirm * VV` of a matrix. -/
def smulMat (c : ℚ) (m : Mat) : Mat := m.map (fun row => row.map (fun x => c * x))

/-- Elementwise matrix addition `e + M` (numpy `+` on equal shapes). -/
def addMat (a b : Mat) : Mat :=
  List.zipWith (fun ra rb => List.zipWith (fun x y => x + y) ra rb) a b

/-- The vectorized update of cell 3:
`VV = np.tile(np.reshape(V, (1, sizek)), (sizek, 1)); Vmat = e + betafirm * VV`. -/
def vectorized_update (V : Vec) (e : Mat) (betafirm : ℚ) (sizek : Nat) : Mat :=
  addMat e (smulMat betafirm (tileRows (reshapeRow V) sizek))

/-- Models `np.zeros(sizek)`. -/
def zerosVec (sizek : Nat) : Vec := List.replicate sizek 0

/-- Models `np.zeros((sizek, sizek))`. -/
def zerosMat (sizek : Nat) : Mat := List.replicate sizek (List.replicate sizek 0)

/-- Array initialization of cell 1: `Vmat`, `e` and `V` are allocated
all-zero with shapes `(sizek, sizek)`, `(sizek, sizek)` and `sizek`;
the scalar `betafirm` is set alongside and does not affect the arrays.
Returned as `(V, e, Vmat)`. -/
def initialize_grid (sizek : Nat) (betafirm : ℚ) : Vec × Mat × Mat :=
  (zerosVec sizek, zerosMat sizek, zerosMat sizek)

/-- Modelled from the spec contract of the update (section 4.2):
the matrix whose entry `(i, j)` is `e[i][j] + betafirm * V[j]` for
`i, j` in `[0, sizek)`.  Used as the common comparison point for the
refinement claims. -/
def specUpdate (V : Vec) (e : Mat) (betafirm : ℚ) (sizek : Nat) : Mat :=
  (List.range sizek).map (fun i =>
    (List.range sizek).map (fun j => getE e i j + betafirm * getV V j))

/-- Fallible read `V[j]`: numpy raises IndexError when the integer index
is out of range. -/
def getVE (V : Vec) (j : Nat) : Option ℚ := V[j]?

/-- Fallible read `e[i, j]`. -/
def getEE (e : Mat) (i j : Nat) : Option ℚ := (e[i]?).bind (fun row => row[j]?)

/-- Fallible write `Vmat[i, j] = v`: fails when `(i, j)` is out of the
bounds of `Vmat`. -/
def setEntryE (m : Mat) (i j : Nat) (v : ℚ) : Option Mat :=
  (m[i]?).bind (fun row => if j < row.length then some (m.set i (row.set j v)) else none)

/-- One iteration of the loop body under the fallible semantics:
read `e[i, j]` and `V[j]`, then write `Vmat[i, j]`. -/
def stepE (V : Vec) (e : Mat) (betafirm : ℚ) (i j : Nat) (Vmat : Mat) : Option Mat :=
  (getEE e i j).bind (fun a => (getVE V j).bind (fun b => setEntryE Vmat i j (a + betafirm * b)))

/-- Inner loop under the fallible semantics. -/
def innerE (V : Vec) (e : Mat) (betafirm : ℚ) (i : Nat) : Nat → Mat → Option Mat
  | 0, Vmat => some Vmat
  | j + 1, Vmat => (innerE V e betafirm i j Vmat).bind (fun m => stepE V e betafirm i j m)

/-- Outer loop under the fallible semantics. -/
def outerE (V : Vec) (e : Mat) (betafirm : ℚ) (sizek : Nat) : Nat → Mat → Option Mat
  | 0, Vmat => some Vmat
  | i + 1, Vmat => (outerE V e betafirm sizek i Vmat).bind (fun m => innerE V e betafirm i sizek m)

/-- The update loop under the fallible semantics: `none` models the loop
raising an IndexError, `some m` a normal return of the buffer. -/
def VFI_loopE (V : Vec) (e : Mat) (betafirm : ℚ) (sizek : Nat) (Vmat : Mat) : Option Mat :=
  outerE V e betafirm sizek sizek Vmat

/-- All accesses of one loop-body iteration at `(i, j)` are in bounds. -/
def stepOK (V : Vec) (e : Mat) (Vmat : Mat) (i j : Nat) : Prop :=
  i < e.length ∧ j < rowLen e i ∧ j < V.length ∧ i < Vmat.length ∧ j < rowLen Vmat i

instance (V : Vec) (e : Mat) (Vmat : Mat) (i j : Nat) : Decidable (stepOK V e Vmat i j) := by
  unfold stepOK; infer_instance

/-- All array accesses performed by the double loop are in bounds. -/
def inBounds (V : Vec) (e : Mat) (Vmat : Mat) (sizek : Nat) : Prop :=
  ∀ i < sizek, ∀ j < sizek, stepOK V e Vmat i j

instance (V : Vec) (e : Mat) (Vmat : Mat) (sizek : Nat) :
    Decidable (inBounds V e Vmat sizek) := by
  unfold inBounds; infer_instance

/-- Program state: the three arrays in scope during an update. -/
structure DPState where
  V : Vec
  e : Mat
  Vmat : Mat

/-- One iteration of the loop body as a state transformer: the only
assignment in the source is `Vmat[i, j] = e[i, j] + betafirm * V[j]`. -/
def bodyS (betafirm : ℚ) (i j : Nat) (s : DPState) : DPState :=
  { s with Vmat := setEntry s.Vmat i j (getE s.e i j + betafirm * getV s.V j) }

/-- Inner loop of the update as a state transformer. -/
def innerS (betafirm : ℚ) (i : Nat) : Nat → DPState → DPState
  | 0, s => s
  | j + 1, s => bodyS betafirm i j (innerS betafirm i j s)

/-- Outer loop of the update as a state transformer. -/
def outerS (betafirm : ℚ) (sizek : Nat) : Nat → DPState → DPState
  | 0, s => s
  | i + 1, s => innerS betafirm i sizek (outerS betafirm sizek i s)

/-- The double loop (shared by the naive cell-1 loop and `VFI_loop`) as
a state transformer. -/
def loopS (betafirm : ℚ) (sizek : Nat) (s : DPState) : DPState :=
  outerS betafirm sizek sizek s

/-- The vectorized update of cell 3 as a state transformer: it rebinds
`Vmat` to a freshly computed matrix and reads `V` and `e`. -/
def vectorizedS (betafirm : ℚ) (sizek : Nat) (s : DPState) : DPState :=
  { s with Vmat := vectorized_update s.V s.e betafirm sizek }

/-- Maximum absolute elementwise difference of two matrices. -/
def maxAbsDiff (a b : Mat) : ℚ :=
  (List.zipWith (fun ra rb => (List.zipWith (fun x y => |x - y|) ra rb).foldr max 0) a b).foldr
    max 0

lemma getD_set_lt {α : Type} (l : List α) (i : Nat) (a d : α) (h : i < l.length) :
    (l.set i a).getD i d = a := by
  simp [List.getD_eq_getElem?_getD, List.getElem?_set_self h]

lemma getD_set_ne {α : Type} (l : List α) (i k : Nat) (a d : α) (h : i ≠ k) :
    (l.set i a).getD k d = l.getD k d := by
  simp [List.getD_eq_getElem?_getD, List.getElem?_set_ne h]

lemma length_setEntry (m : Mat) (i j : Nat) (v : ℚ) : (setEntry m i j v).length = m.length := by
  simp [setEntry]

lemma rowLen_setEntry (m : Mat) (i j : Nat) (v : ℚ) (k : Nat) :
    rowLen (setEntry m i j v) k = rowLen m k := by
  unfold rowLen setEntry
  rcases eq_or_ne i k with rfl | hik
  · by_cases hi : i < m.length
    · simp [List.getD_eq_getElem?_getD, List.getElem?_set_self hi, List.getElem?_eq_getElem hi]
    · rw [List.set_eq_of_length_le (Nat.le_of_not_lt hi)]
  · simp [List.getD_eq_getElem?_getD, List.getElem?_set_ne hik]

lemma getE_setEntry_self (m : Mat) (i j : Nat) (v : ℚ) (hi : i < m.length)
    (hj : j < rowLen m i) : getE (setEntry m i j v) i j = v := by
  have hj2 : j < (m.getD i []).length := hj
  unfold getE setEntry
  rw [getD_set_lt _ _ _ _ hi, getD_set_lt _ _ _ _ hj2]

lemma getE_setEntry_ne (m : Mat) (i j k l : Nat) (v : ℚ) (h : k ≠ i ∨ l ≠ j) :
    getE (setEntry m i j v) k l = getE m k l := by
  unfold getE setEntry
  rcases h with hk | hl
  · simp [List.getD_eq_getElem?_getD, List.getElem?_set_ne (Ne.symm hk)]
  · rcases eq_or_ne k i with rfl | hk
    · by_cases hi : k < m.length
      · simp [List.getD_eq_getElem?_getD, List.getElem?_set_self hi,
          List.getElem?_eq_getElem hi, List.getElem?_set_ne (Ne.symm hl)]
      · rw [List.set_eq_of_length_le (Nat.le_of_not_lt hi)]
    · simp [List.getD_eq_getElem?_getD, List.getElem?_set_ne (Ne.symm hk)]

lemma rowLen_eq_length (m : Mat) (i : Nat) (h : i < m.length) :
    rowLen m i = (m.get ⟨i, h⟩).length := by
  simp [rowLen, List.getD_eq_getElem?_getD, List.getElem?_eq_getElem h]

lemma getElem_eq_getE (m : Mat) (i j : Nat) (h1 : i < m.length)
    (h2 : j < (m.get ⟨i, h1⟩).length) : (m.get ⟨i, h1⟩).get ⟨j, h2⟩ = getE m i j := by
  have h2b : j < (m.get ⟨i, h1⟩).length := h2
  simp only [List.get_eq_getElem] at h2b ⊢
  simp [getE, List.getD_eq_getElem?_getD, List.getElem?_eq_getElem h1,
    List.getElem?_eq_getElem h2b]

lemma getV_eq_getElem (V : Vec) (j : Nat) (h : j < V.length) : getV V j = V.get ⟨j, h⟩ := by
  simp [getV, List.getD_eq_getElem?_getD, List.getElem?_eq_getElem h]

lemma length_naiveInner (V : Vec) (e : Mat) (betafirm : ℚ) (i c : Nat) (Vmat : Mat) :
    (naiveInner V e betafirm i c Vmat).length = Vmat.length := by
  induction c with
  | zero => rfl
  | succ c ih => simp [naiveInner, length_setEntry, ih]

lemma rowLen_naiveInner (V : Vec) (e : Mat) (betafirm : ℚ) (i c : Nat) (Vmat : Mat) (k : Nat) :
    rowLen (naiveInner V e betafirm i c Vmat) k = rowLen Vmat k := by
  induction c with
  | zero => rfl
  | succ c ih => rw [naiveInner, rowLen_setEntry, ih]

lemma getE_naiveInner_lt (V : Vec) (e : Mat) (betafirm : ℚ) (i c j : Nat) (Vmat : Mat)
    (hj : j < c) (hi : i < Vmat.length) (hj2 : j < rowLen Vmat i) :
    getE (naiveInner V e betafirm i c Vmat) i j = getE e i j + betafirm * getV V j := by
  induction c with
  | zero => omega
  | succ c ih =>
    rcases Nat.lt_succ_iff_lt_or_eq.mp hj with h | rfl
    · rw [naiveInner, getE_setEntry_ne _ _ _ _ _ _ (Or.inr (Nat.ne_of_lt h))]
      exact ih h
    · rw [naiveInner]
      rw [getE_setEntry_self]
      · rw [length_naiveInner]; exact hi
      · rw [rowLen_naiveInner]; exact hj2

lemma getE_naiveInner_ne (V : Vec) (e : Mat) (betafirm : ℚ) (i c : Nat) (Vmat : Mat)
    (k l : Nat) (hk : k ≠ i) :
    getE (naiveInner V e betafirm i c Vmat) k l = getE Vmat k l := by
  induction c with
  | zero => rfl
  | succ c ih => rw [naiveInner, getE_setEntry_ne _ _ _ _ _ _ (Or.inl hk), ih]

lemma length_naiveOuter (V : Vec) (e : Mat) (betafirm : ℚ) (sizek c : Nat) (Vmat : Mat) :
    (naiveOuter V e betafirm sizek c Vmat).length = Vmat.length := by
  induction c with
  | zero => rfl
  | succ c ih => rw [naiveOuter, length_naiveInner, ih]

lemma rowLen_naiveOuter (V : Vec) (e : Mat) (betafirm : ℚ) (sizek c : Nat) (Vmat : Mat)
    (k : Nat) : rowLen (naiveOuter V e betafirm sizek c Vmat) k = rowLen Vmat k := by
  induction c with
  | zero => rfl
  | succ c ih => rw [naiveOuter, rowLen_naiveInner, ih]

lemma getE_naiveOuter_lt (V : Vec) (e : Mat) (betafirm : ℚ) (sizek c i j : Nat) (Vmat : Mat)
    (hi : i < c) (hj : j < sizek) (hVm : i < Vmat.length) (hrow : j < rowLen Vmat i) :
    getE (naiveOuter V e betafirm sizek c Vmat) i j = getE e i j + betafirm * getV V j := by
  induction c with
  | zero => omega
  | succ c ih =>
    rcases Nat.lt_succ_iff_lt_or_eq.mp hi with h | rfl
    · rw [naiveOuter, getE_naiveInner_ne _ _ _ _ _ _ _ _ (Nat.ne_of_lt h)]
      exact ih h
    · rw [naiveOuter]
      rw [getE_naiveInner_lt _ _ _ _ _ _ _ hj]
      · rw [length_naiveOuter]; exact hVm
      · rw [rowLen_naiveOuter]; exact hrow

lemma length_naive_update (V : Vec) (e : Mat) (betafirm : ℚ) (sizek : Nat) (Vmat : Mat) :
    (naive_update V e betafirm sizek Vmat).length = Vmat.length :=
  length_naiveOuter V e betafirm sizek sizek Vmat

lemma rowLen_naive_update (V : Vec) (e : Mat) (betafirm : ℚ) (sizek : Nat) (Vmat : Mat)
    (k : Nat) : rowLen (naive_update V e betafirm sizek Vmat) k = rowLen Vmat k :=
  rowLen_naiveOuter V e betafirm sizek sizek Vmat k

lemma getE_naive_update (V : Vec) (e : Mat) (betafirm : ℚ) (sizek i j : Nat) (Vmat : Mat)
    (hi : i < sizek) (hj : j < sizek) (hVm : i < Vmat.length) (hrow : j < rowLen Vmat i) :
    getE (naive_update V e betafirm sizek Vmat) i j = getE e i j + betafirm * getV V j :=
  getE_naiveOuter_lt V e betafirm sizek sizek i j Vmat hi hj hVm hrow

lemma length_specUpdate (V : Vec) (e : Mat) (betafirm : ℚ) (sizek : Nat) :
    (specUpdate V e betafirm sizek).length = sizek := by
  simp [specUpdate]

lemma getElem_specUpdate (V : Vec) (e : Mat) (betafirm : ℚ) (sizek i j : Nat)
    (h1 : i < (specUpdate V e betafirm sizek).length)
    (h2 : j < ((specUpdate V e betafirm sizek).get ⟨i, h1⟩).length) :
    ((specUpdate V e betafirm sizek).get ⟨i, h1⟩).get ⟨j, h2⟩ =
      getE e i j + betafirm * getV V j := by
  simp [specUpdate]

lemma rowLen_specUpdate (V : Vec) (e : Mat) (betafirm : ℚ) (sizek i : Nat)
    (h1 : i < (specUpdate V e betafirm sizek).length) :
    ((specUpdate V e betafirm sizek).get ⟨i, h1⟩).length = sizek := by
  simp [specUpdate]

lemma naive_update_eq_spec (V : Vec) (e : Mat) (betafirm : ℚ) (sizek : Nat) (Vmat : Mat)
    (hlen : Vmat.length = sizek) (hrow : ∀ i < sizek, rowLen Vmat i = sizek) :
    naive_update V e betafirm sizek Vmat = specUpdate V e betafirm sizek := by
  apply List.ext_get
  · rw [length_naive_update, hlen, length_specUpdate]
  · intro i hL hR
    have hi : i < sizek := by rw [length_naive_update, hlen] at hL; exact hL
    apply List.ext_get
    · rw [← rowLen_eq_length _ _ hL, rowLen_naive_update, hrow i hi,
        rowLen_specUpdate]
    · intro j hjL hjR
      have hj : j < sizek := by
        rw [← rowLen_eq_length _ _ hL, rowLen_naive_update] at hjL
        rw [hrow i hi] at hjL; exact hjL
      rw [getElem_eq_getE, getElem_specUpdate]
      exact getE_naive_update V e betafirm sizek i j Vmat hi hj
        (by rw [hlen]; exact hi) (by rw [hrow i hi]; exact hj)

lemma VFIInner_eq_naiveInner (V : Vec) (e : Mat) (betafirm : ℚ) (i c : Nat) (Vmat : Mat) :
    VFIInner V e betafirm i c Vmat = naiveInner V e betafirm i c Vmat := by
  induction c with
  | zero => rfl
  | succ c ih => rw [VFIInner, naiveInner, ih]

lemma VFIOuter_eq_naiveOuter (V : Vec) (e : Mat) (betafirm : ℚ) (sizek c : Nat) (Vmat : Mat) :
    VFIOuter V e betafirm sizek c Vmat = naiveOuter V e betafirm sizek c Vmat := by
  induction c with
  | zero => rfl
  | succ c ih => rw [VFIOuter, naiveOuter, ih, VFIInner_eq_naiveInner]

lemma VFI_loop_eq_naive_update (V : Vec) (e : Mat) (betafirm : ℚ) (sizek : Nat) (Vmat : Mat) :
    VFI_loop V e betafirm sizek Vmat = naive_update V e betafirm sizek Vmat :=
  VFIOuter_eq_naiveOuter V e betafirm sizek sizek Vmat

lemma VFI_loop_eq_spec (V : Vec) (e : Mat) (betafirm : ℚ) (sizek : Nat) (Vmat : Mat)
    (hlen : Vmat.length = sizek) (hrow : ∀ i < sizek, rowLen Vmat i = sizek) :
    VFI_loop V e betafirm sizek Vmat = specUpdate V e betafirm sizek := by
  rw [VFI_loop_eq_naive_update]
  exact naive_update_eq_spec V e betafirm sizek Vmat hlen hrow

lemma tileRows_reshapeRow (V : Vec) (k : Nat) :
    tileRows (reshapeRow V) k = List.replicate k V := by
  induction k with
  | zero => rfl
  | succ k ih =>
    rw [tileRows, List.replicate_succ, List.flatten_cons]
    rw [tileRows] at ih
    rw [ih, reshapeRow, List.singleton_append, List.replicate_succ]

lemma vectorized_eq_spec (V : Vec) (e : Mat) (betafirm : ℚ) (sizek : Nat)
    (hV : V.length = sizek) (he : e.length = sizek)
    (hrow : ∀ i < sizek, rowLen e i = sizek) :
    vectorized_update V e betafirm sizek = specUpdate V e betafirm sizek := by
  unfold vectorized_update
  rw [tileRows_reshapeRow]
  apply List.ext_getElem
  · simp [addMat, smulMat, length_specUpdate, he, hV]
  · intro i h1 h2
    have hi : i < sizek := by rwa [length_specUpdate] at h2
    have hie : i < e.length := by omega
    have herow : (e[i]).length = sizek := by
      have h3 := hrow i hi
      simp only [rowLen, List.getD_eq_getElem?_getD, List.getElem?_eq_getElem hie,
        Option.getD_some] at h3
      exact h3
    apply List.ext_getElem
    · simp only [addMat, smulMat, List.getElem_zipWith, List.length_zipWith,
        List.getElem_map, List.getElem_replicate, List.length_map, specUpdate,
        List.getElem_map, List.getElem_range, List.length_range]
      omega
    · intro j hj1 hj2
      have hj : j < sizek := by
        simp only [specUpdate, List.getElem_map, List.getElem_range,
          List.length_map, List.length_range] at hj2
        exact hj2
      have hjrow : j < (e[i]).length := by omega
      have hjV : j < V.length := by omega
      simp only [addMat, smulMat, List.getElem_zipWith, List.getElem_map,
        List.getElem_replicate, specUpdate, List.getElem_range, getE, getV,
        List.getD_eq_getElem?_getD, List.getElem?_eq_getElem hie, Option.getD_some,
        List.getElem?_eq_getElem hjrow, List.getElem?_eq_getElem hjV]

lemma getElemOpt_isSome {α : Type} (l : List α) (n : Nat) : (l[n]?).isSome ↔ n < l.length := by
  by_cases h : n < l.length
  · simp [List.getElem?_eq_getElem h, h]
  · simp [List.getElem?_eq_none (Nat.le_of_not_lt h), h]

lemma getVE_isSome_iff (V : Vec) (j : Nat) : (getVE V j).isSome ↔ j < V.length :=
  getElemOpt_isSome V j

lemma getVE_some_imp (V : Vec) (j : Nat) (b : ℚ) (h : getVE V j = some b) : getV V j = b := by
  unfold getVE at h
  simp [getV, List.getD_eq_getElem?_getD, h]

lemma getEE_isSome_iff (e : Mat) (i j : Nat) :
    (getEE e i j).isSome ↔ i < e.length ∧ j < rowLen e i := by
  unfold getEE
  by_cases hi : i < e.length
  · rw [List.getElem?_eq_getElem hi, Option.some_bind, getElemOpt_isSome]
    have hr : rowLen e i = (e[i]).length := by
      simp [rowLen, List.getD_eq_getElem?_getD, List.getElem?_eq_getElem hi]
    rw [hr]
    simp [hi]
  · rw [List.getElem?_eq_none (Nat.le_of_not_lt hi), Option.none_bind]
    simp [hi]

lemma getEE_some_imp (e : Mat) (i j : Nat) (a : ℚ) (h : getEE e i j = some a) :
    getE e i j = a := by
  unfold getEE at h
  rcases hei : e[i]? with _ | row
  · rw [hei, Option.none_bind] at h
    exact absurd h (by simp)
  · rw [hei, Option.some_bind] at h
    simp [getE, List.getD_eq_getElem?_getD, hei, h]

lemma setEntryE_isSome_iff (m : Mat) (i j : Nat) (v : ℚ) :
    (setEntryE m i j v).isSome ↔ i < m.length ∧ j < rowLen m i := by
  unfold setEntryE
  by_cases hi : i < m.length
  · rw [List.getElem?_eq_getElem hi, Option.some_bind]
    have hr : rowLen m i = (m[i]).length := by
      simp [rowLen, List.getD_eq_getElem?_getD, List.getElem?_eq_getElem hi]
    rw [hr]
    by_cases hj : j < (m[i]).length
    · simp [hi, hj]
    · simp [hi, hj]
  · rw [List.getElem?_eq_none (Nat.le_of_not_lt hi), Option.none_bind]
    simp [hi]

lemma setEntryE_some_imp (m : Mat) (i j : Nat) (v : ℚ) (m2 : Mat)
    (h : setEntryE m i j v = some m2) : m2 = setEntry m i j v := by
  unfold setEntryE at h
  rcases hmi : m[i]? with _ | row
  · rw [hmi, Option.none_bind] at h
    exact absurd h (by simp)
  · rw [hmi, Option.some_bind] at h
    by_cases hj : j < row.length
    · rw [if_pos hj] at h
      have hrow : m.getD i [] = row := by
        simp [List.getD_eq_getElem?_getD, hmi]
      rw [setEntry, hrow]
      exact (Option.some_inj.mp h).symm
    · rw [if_neg hj] at h
      exact absurd h (by simp)

lemma stepE_of_ok (V : Vec) (e : Mat) (betafirm : ℚ) (i j : Nat) (Vmat : Mat)
    (h : stepOK V e Vmat i j) :
    stepE V e betafirm i j Vmat =
      some (setEntry Vmat i j (getE e i j + betafirm * getV V j)) := by
  obtain ⟨h1, h2, h3, h4, h5⟩ := h
  obtain ⟨a, ha⟩ := Option.isSome_iff_exists.mp ((getEE_isSome_iff e i j).mpr ⟨h1, h2⟩)
  obtain ⟨b, hb⟩ := Option.isSome_iff_exists.mp ((getVE_isSome_iff V j).mpr h3)
  obtain ⟨m2, hm⟩ := Option.isSome_iff_exists.mp
    ((setEntryE_isSome_iff Vmat i j (a + betafirm * b)).mpr ⟨h4, h5⟩)
  rw [stepE, ha, Option.some_bind, hb, Option.some_bind, hm,
    setEntryE_some_imp Vmat i j (a + betafirm * b) m2 hm,
    getEE_some_imp e i j a ha, getVE_some_imp V j b hb]

lemma stepE_ok_of_some (V : Vec) (e : Mat) (betafirm : ℚ) (i j : Nat) (Vmat m2 : Mat)
    (h : stepE V e betafirm i j Vmat = some m2) : stepOK V e Vmat i j := by
  unfold stepE at h
  rcases ha : getEE e i j with _ | a
  · rw [ha, Option.none_bind] at h
    exact absurd h (by simp)
  · rw [ha, Option.some_bind] at h
    rcases hb : getVE V j with _ | b
    · rw [hb, Option.none_bind] at h
      exact absurd h (by simp)
    · rw [hb, Option.some_bind] at h
      have h12 := (getEE_isSome_iff e i j).mp (by rw [ha]; rfl)
      have h3 := (getVE_isSome_iff V j).mp (by rw [hb]; rfl)
      have h45 := (setEntryE_isSome_iff Vmat i j (a + betafirm * b)).mp (by rw [h]; rfl)
      exact ⟨h12.1, h12.2, h3, h45.1, h45.2⟩

lemma stepE_some_imp (V : Vec) (e : Mat) (betafirm : ℚ) (i j : Nat) (Vmat m2 : Mat)
    (h : stepE V e betafirm i j Vmat = some m2) :
    m2 = setEntry Vmat i j (getE e i j + betafirm * getV V j) := by
  have hok := stepE_ok_of_some V e betafirm i j Vmat m2 h
  rw [stepE_of_ok V e betafirm i j Vmat hok] at h
  exact (Option.some_inj.mp h).symm

lemma stepOK_congr (V : Vec) (e : Mat) (Vmat Vmat2 : Mat) (i j : Nat)
    (hlen : Vmat2.length = Vmat.length) (hrow : ∀ k, rowLen Vmat2 k = rowLen Vmat k) :
    stepOK V e Vmat2 i j ↔ stepOK V e Vmat i j := by
  unfold stepOK
  rw [hlen, hrow]

lemma innerE_of_ok (V : Vec) (e : Mat) (betafirm : ℚ) (i c : Nat) (Vmat : Mat)
    (h : ∀ j < c, stepOK V e Vmat i j) :
    innerE V e betafirm i c Vmat = some (naiveInner V e betafirm i c Vmat) := by
  induction c with
  | zero => rfl
  | succ c ih =>
    rw [innerE, ih (fun j hj => h j (Nat.lt_succ_of_lt hj)), Option.some_bind]
    have hok : stepOK V e (naiveInner V e betafirm i c Vmat) i c := by
      rw [stepOK_congr V e Vmat _ i c (length_naiveInner V e betafirm i c Vmat)
        (rowLen_naiveInner V e betafirm i c Vmat)]
      exact h c (Nat.lt_succ_self c)
    rw [stepE_of_ok V e betafirm i c _ hok, naiveInner]

lemma innerE_shape (V : Vec) (e : Mat) (betafirm : ℚ) (i c : Nat) (Vmat m2 : Mat)
    (h : innerE V e betafirm i c Vmat = some m2) :
    m2.length = Vmat.length ∧ ∀ k, rowLen m2 k = rowLen Vmat k := by
  induction c generalizing m2 with
  | zero =>
    rw [innerE] at h
    rw [← Option.some_inj.mp h]
    exact ⟨rfl, fun k => rfl⟩
  | succ c ih =>
    rw [innerE] at h
    rcases hm1 : innerE V e betafirm i c Vmat with _ | m1
    · rw [hm1, Option.none_bind] at h
      exact absurd h (by simp)
    · rw [hm1, Option.some_bind] at h
      obtain ⟨hl, hr⟩ := ih m1 hm1
      rw [stepE_some_imp V e betafirm i c m1 m2 h]
      exact ⟨by rw [length_setEntry, hl], fun k => by rw [rowLen_setEntry, hr]⟩

lemma innerE_ok_of_isSome (V : Vec) (e : Mat) (betafirm : ℚ) (i c : Nat) (Vmat : Mat)
    (h : (innerE V e betafirm i c Vmat).isSome) : ∀ j < c, stepOK V e Vmat i j := by
  induction c with
  | zero => omega
  | succ c ih =>
    rw [innerE] at h
    rcases hm1 : innerE V e betafirm i c Vmat with _ | m1
    · rw [hm1, Option.none_bind] at h
      exact absurd h (by simp)
    · rw [hm1, Option.some_bind] at h
      obtain ⟨m2, hm2⟩ := Option.isSome_iff_exists.mp h
      have hokc : stepOK V e Vmat i c := by
        obtain ⟨hl, hr⟩ := innerE_shape V e betafirm i c Vmat m1 hm1
        rw [← stepOK_congr V e Vmat m1 i c hl hr]
        exact stepE_ok_of_some V e betafirm i c m1 m2 hm2
      intro j hj
      rcases Nat.lt_succ_iff_lt_or_eq.mp hj with hlt | rfl
      · exact ih (by rw [hm1]; rfl) j hlt
      · exact hokc

lemma outerE_of_ok (V : Vec) (e : Mat) (betafirm : ℚ) (sizek c : Nat) (Vmat : Mat)
    (h : ∀ i < c, ∀ j < sizek, stepOK V e Vmat i j) :
    outerE V e betafirm sizek c Vmat = some (naiveOuter V e betafirm sizek c Vmat) := by
  induction c with
  | zero => rfl
  | succ c ih =>
    rw [outerE, ih (fun i hi => h i (Nat.lt_succ_of_lt hi)), Option.some_bind]
    have hok : ∀ j < sizek, stepOK V e (naiveOuter V e betafirm sizek c Vmat) c j := by
      intro j hj
      rw [stepOK_congr V e Vmat _ c j (length_naiveOuter V e betafirm sizek c Vmat)
        (rowLen_naiveOuter V e betafirm sizek c Vmat)]
      exact h c (Nat.lt_succ_self c) j hj
    rw [innerE_of_ok V e betafirm c sizek _ hok, naiveOuter]

lemma outerE_shape (V : Vec) (e : Mat) (betafirm : ℚ) (sizek c : Nat) (Vmat m2 : Mat)
    (h : outerE V e betafirm sizek c Vmat = some m2) :
    m2.length = Vmat.length ∧ ∀ k, rowLen m2 k = rowLen Vmat k := by
  induction c generalizing m2 with
  | zero =>
    rw [outerE] at h
    rw [← Option.some_inj.mp h]
    exact ⟨rfl, fun k => rfl⟩
  | succ c ih =>
    rw [outerE] at h
    rcases hm1 : outerE V e betafirm sizek c Vmat with _ | m1
    · rw [hm1, Option.none_bind] at h
      exact absurd h (by simp)
    · rw [hm1, Option.some_bind] at h
      obtain ⟨hl, hr⟩ := ih m1 hm1
      obtain ⟨hl2, hr2⟩ := innerE_shape V e betafirm c sizek m1 m2 h
      exact ⟨by rw [hl2, hl], fun k => by rw [hr2, hr]⟩

lemma outerE_ok_of_isSome (V : Vec) (e : Mat) (betafirm : ℚ) (sizek c : Nat) (Vmat : Mat)
    (h : (outerE V e betafirm sizek c Vmat).isSome) :
    ∀ i < c, ∀ j < sizek, stepOK V e Vmat i j := by
  induction c with
  | zero => omega
  | succ c ih =>
    rw [outerE] at h
    rcases hm1 : outerE V e betafirm sizek c Vmat with _ | m1
    · rw [hm1, Option.none_bind] at h
      exact absurd h (by simp)
    · rw [hm1, Option.some_bind] at h
      have hokc : ∀ j < sizek, stepOK V e Vmat c j := by
        intro j hj
        obtain ⟨hl, hr⟩ := outerE_shape V e betafirm sizek c Vmat m1 hm1
        rw [← stepOK_congr V e Vmat m1 c j hl hr]
        exact innerE_ok_of_isSome V e betafirm c sizek m1 h j hj
      intro i hi
      rcases Nat.lt_succ_iff_lt_or_eq.mp hi with hlt | rfl
      · exact ih (by rw [hm1]; rfl) i hlt
      · exact hokc

lemma VFI_loopE_of_inBounds (V : Vec) (e : Mat) (betafirm : ℚ) (sizek : Nat) (Vmat : Mat)
    (h : inBounds V e Vmat sizek) :
    VFI_loopE V e betafirm sizek Vmat = some (VFI_loop V e betafirm sizek Vmat) := by
  rw [VFI_loopE, VFI_loop, VFIOuter_eq_naiveOuter]
  exact outerE_of_ok V e betafirm sizek sizek Vmat h

lemma VFI_loopE_isSome_iff (V : Vec) (e : Mat) (betafirm : ℚ) (sizek : Nat) (Vmat : Mat) :
    (VFI_loopE V e betafirm sizek Vmat).isSome ↔ inBounds V e Vmat sizek := by
  constructor
  · exact fun h => outerE_ok_of_isSome V e betafirm sizek sizek Vmat h
  · intro h
    rw [VFI_loopE_of_inBounds V e betafirm sizek Vmat h]
    rfl

lemma innerS_V (betafirm : ℚ) (i c : Nat) (s : DPState) : (innerS betafirm i c s).V = s.V := by
  induction c with
  | zero => rfl
  | succ c ih => rw [innerS, bodyS]; exact ih

lemma innerS_e (betafirm : ℚ) (i c : Nat) (s : DPState) : (innerS betafirm i c s).e = s.e := by
  induction c with
  | zero => rfl
  | succ c ih => rw [innerS, bodyS]; exact ih

lemma outerS_V (betafirm : ℚ) (sizek c : Nat) (s : DPState) :
    (outerS betafirm sizek c s).V = s.V := by
  induction c with
  | zero => rfl
  | succ c ih => rw [outerS, innerS_V]; exact ih

lemma outerS_e (betafirm : ℚ) (sizek c : Nat) (s : DPState) :
    (outerS betafirm sizek c s).e = s.e := by
  induction c with
  | zero => rfl
  | succ c ih => rw [outerS, innerS_e]; exact ih

lemma foldr_max_map_zero {α : Type} (l : List α) :
    (l.map (fun _ => (0:ℚ))).foldr max 0 = 0 := by
  induction l with
  | nil => rfl
  | cons x xs ih => rw [List.map_cons, List.foldr_cons, ih]; exact max_self 0

lemma maxAbsDiff_self (a : Mat) : maxAbsDiff a a = 0 := by
  unfold maxAbsDiff
  rw [List.zipWith_same]
  have hmap : (a.map fun r => (List.zipWith (fun x y => |x - y|) r r).foldr max 0) =
      a.map (fun _ => (0:ℚ)) := by
    apply List.map_congr_left
    intro r _
    rw [List.zipWith_same]
    have hz : (r.map fun x => |x - x|) = r.map (fun _ => (0:ℚ)) := by simp
    rw [hz, foldr_max_map_zero]
  rw [hmap, foldr_max_map_zero]

lemma getV_zerosVec (sizek j : Nat) (h : j < sizek) : getV (zerosVec sizek) j = 0 := by
  simp [getV, zerosVec, List.getD_eq_getElem?_getD, List.getElem?_replicate_of_lt h]

lemma rowLen_zerosMat (sizek i : Nat) (h : i < sizek) : rowLen (zerosMat sizek) i = sizek := by
  simp [rowLen, zerosMat, List.getD_eq_getElem?_getD, List.getElem?_replicate_of_lt h]

lemma getE_zerosMat (sizek i j : Nat) (hi : i < sizek) (hj : j < sizek) :
    getE (zerosMat sizek) i j = 0 := by
  simp [getE, zerosMat, List.getD_eq_getElem?_getD, List.getElem?_replicate_of_lt hi,
    List.getElem?_replicate_of_lt hj]

/-- C1: for a length-`sizek` vector `V` and `sizek × sizek` matrices `e` and `Vmat`,
the double loop of `VFI_loop` (identical to the naive cell-1 loop) sets
`Vmat[i][j] = e[i][j] + betafirm * V[j]` for every row index `i < sizek` and
column index `j < sizek` of the returned buffer. -/
theorem VFI_loop_writes_every_entry (V : Vec) (e : Mat) (betafirm : ℚ) (sizek : Nat)
    (Vmat : Mat) (hV : V.length = sizek) (he : e.length = sizek)
    (herow : ∀ i < sizek, rowLen e i = sizek) (hm : Vmat.length = sizek)
    (hmrow : ∀ i < sizek, rowLen Vmat i = sizek) :
    ∀ i < sizek, ∀ j < sizek,
      getE (VFI_loop V e betafirm sizek Vmat) i j = getE e i j + betafirm * getV V j := by
  intro i hi j hj
  rw [VFI_loop_eq_naive_update]
  exact getE_naive_update V e betafirm sizek i j Vmat hi hj (by rw [hm]; exact hi)
    (by rw [hmrow i hi]; exact hj)

/-- Witness for C1 at `sizek = 1`, `V = [2]`, `e = [[5]]`, `betafirm = 1/2`,
zero buffer. -/
theorem VFI_loop_writes_every_entry_witness :
    getE (VFI_loop [2] [[5]] (1/2) 1 [[0]]) 0 0 = getE [[5]] 0 0 + (1/2) * getV [2] 0 :=
  VFI_loop_writes_every_entry [2] [[5]] (1/2) 1 [[0]] rfl rfl
    (by intro i hi; interval_cases i; rfl) rfl
    (by intro i hi; interval_cases i; rfl) 0 (by norm_num) 0 (by norm_num)

/-- C2: the compiled update `VFI_loop` produces output exactly equal, element for
element, to the naive interpreted loop update on the same inputs; the two loops
perform the same scalar operations in the same order, and only the execution
strategy (jit compilation) differs. -/
theorem compiled_update_eq_naive_update (V : Vec) (e : Mat) (betafirm : ℚ) (sizek : Nat)
    (Vmat : Mat) : VFI_loop V e betafirm sizek Vmat = naive_update V e betafirm sizek Vmat :=
  VFI_loop_eq_naive_update V e betafirm sizek Vmat

/-- C3: on well-formed inputs the vectorized update (tile `V` into a `sizek × sizek`
matrix of identical rows, then compute `e + betafirm * VV`) produces the same
matrix as the naive loop update, so the maximum absolute elementwise difference
is below `1e-9`. -/
theorem vectorized_update_matches_naive (V : Vec) (e : Mat) (betafirm : ℚ) (sizek : Nat)
    (Vmat : Mat) (hV : V.length = sizek) (he : e.length = sizek)
    (herow : ∀ i < sizek, rowLen e i = sizek) (hm : Vmat.length = sizek)
    (hmrow : ∀ i < sizek, rowLen Vmat i = sizek) :
    vectorized_update V e betafirm sizek = naive_update V e betafirm sizek Vmat ∧
    maxAbsDiff (vectorized_update V e betafirm sizek)
      (naive_update V e betafirm sizek Vmat) < 1 / 1000000000 := by
  have h1 := vectorized_eq_spec V e betafirm sizek hV he herow
  have h2 := naive_update_eq_spec V e betafirm sizek Vmat hm hmrow
  refine ⟨by rw [h1, h2], ?_⟩
  rw [h1, h2, maxAbsDiff_self]
  norm_num

/-- Witness for C3 at `sizek = 1`, `V = [2]`, `e = [[5]]`, `betafirm = 1/2`,
zero buffer. -/
theorem vectorized_update_matches_naive_witness :
    vectorized_update [2] [[5]] (1/2) 1 = naive_update [2] [[5]] (1/2) 1 [[0]] ∧
    maxAbsDiff (vectorized_update [2] [[5]] (1/2) 1)
      (naive_update [2] [[5]] (1/2) 1 [[0]]) < 1 / 1000000000 :=
  vectorized_update_matches_naive [2] [[5]] (1/2) 1 [[0]] rfl rfl
    (by intro i hi; interval_cases i; rfl) rfl
    (by intro i hi; interval_cases i; rfl)

/-- C4: an update step leaves the input vector `V` and the input matrix `e`
unchanged; only `Vmat` is written.  `loopS` is the double loop shared verbatim
by the naive and the compiled update (their equality is C2), and `vectorizedS`
is the vectorized update, both as transformers on the program state. -/
theorem update_preserves_inputs (betafirm : ℚ) (sizek : Nat) (s : DPState) :
    (loopS betafirm sizek s).V = s.V ∧ (loopS betafirm sizek s).e = s.e ∧
    (vectorizedS betafirm sizek s).V = s.V ∧ (vectorizedS betafirm sizek s).e = s.e :=
  ⟨outerS_V betafirm sizek sizek s, outerS_e betafirm sizek sizek s, rfl, rfl⟩

/-- Counterexample to C5: with `sizek = 2` but all three arrays of extent 3
(dimensions mismatched with `sizek`), the loop raises no error and returns a
normal result: the claim that every dimension mismatch surfaces an error is
false. -/
theorem VFI_loopE_mismatch_tolerated :
    ([(1:ℚ), 2, 3].length ≠ 2 ∧ ([[(7:ℚ), 7, 7], [7, 7, 7], [7, 7, 7]] : Mat).length ≠ 2) ∧
    (VFI_loopE [1, 2, 3] [[7, 7, 7], [7, 7, 7], [7, 7, 7]] (96/100) 2 (zerosMat 3)).isSome =
      true := by
  refine ⟨⟨by simp, by simp⟩, ?_⟩
  rw [VFI_loopE_of_inBounds]
  · rfl
  · intro i hi j hj
    refine ⟨by simp; omega, ?_, by simp; omega, by simp [zerosMat]; omega, ?_⟩
    · have : rowLen [[(7:ℚ), 7, 7], [7, 7, 7], [7, 7, 7]] i = 3 := by
        interval_cases i <;> rfl
      omega
    · have : rowLen (zerosMat 3) i = 3 := rowLen_zerosMat 3 i (by omega)
      omega

/-- C5 amended: an update surfaces an error exactly when the dimension mismatch
makes some required access out of bounds, that is, some `i, j < sizek` lies
beyond the extent of `V`, `e` or `Vmat`; the error propagates immediately
(`none` under the fallible semantics).  Mismatched arrays whose extents are at
least `sizek` everywhere are silently tolerated and produce a normal result. -/
theorem VFI_loopE_none_iff_not_inBounds (V : Vec) (e : Mat) (betafirm : ℚ) (sizek : Nat)
    (Vmat : Mat) :
    VFI_loopE V e betafirm sizek Vmat = none ↔ ¬ inBounds V e Vmat sizek := by
  rw [← Option.not_isSome_iff_eq_none, VFI_loopE_isSome_iff]

/-- C6: for `sizek = 3`, `betafirm = 0.96`, `e` all zeros and `V = [1, 2, 3]`,
each of the three updates returns a matrix whose every row is
`[0.96, 1.92, 2.88]`. -/
theorem scenario_three_by_three :
    naive_update [1, 2, 3] (zerosMat 3) (96/100) 3 (zerosMat 3) =
      [[96/100, 192/100, 288/100], [96/100, 192/100, 288/100], [96/100, 192/100, 288/100]] ∧
    VFI_loop [1, 2, 3] (zerosMat 3) (96/100) 3 (zerosMat 3) =
      [[96/100, 192/100, 288/100], [96/100, 192/100, 288/100], [96/100, 192/100, 288/100]] ∧
    vectorized_update [1, 2, 3] (zerosMat 3) (96/100) 3 =
      [[96/100, 192/100, 288/100], [96/100, 192/100, 288/100], [96/100, 192/100, 288/100]] := by
  refine ⟨?_, ?_, ?_⟩
  · simp [naive_update, naiveOuter, naiveInner, setEntry, getE, getV, zerosMat]
    norm_num
  · simp [VFI_loop, VFIOuter, VFIInner, setEntry, getE, getV, zerosMat]
    norm_num
  · simp [vectorized_update, addMat, smulMat, tileRows, reshapeRow, zerosMat]
    norm_num

/-- C7: for every positive grid size, `initialize_grid` returns `V` of length
`sizek`, `e` of shape `sizek × sizek` and `Vmat` of shape `sizek × sizek`, with
every entry equal to zero. -/
theorem initialize_grid_shapes_and_zero (sizek : Nat) (betafirm : ℚ) (h : 0 < sizek) :
    ((initialize_grid sizek betafirm).1).length = sizek ∧
    (∀ j < sizek, getV (initialize_grid sizek betafirm).1 j = 0) ∧
    ((initialize_grid sizek betafirm).2.1).length = sizek ∧
    (∀ i < sizek, rowLen (initialize_grid sizek betafirm).2.1 i = sizek) ∧
    (∀ i < sizek, ∀ j < sizek, getE (initialize_grid sizek betafirm).2.1 i j = 0) ∧
    ((initialize_grid sizek betafirm).2.2).length = sizek ∧
    (∀ i < sizek, rowLen (initialize_grid sizek betafirm).2.2 i = sizek) ∧
    (∀ i < sizek, ∀ j < sizek, getE (initialize_grid sizek betafirm).2.2 i j = 0) := by
  refine ⟨by simp [initialize_grid, zerosVec],
    fun j hj => getV_zerosVec sizek j hj,
    by simp [initialize_grid, zerosMat],
    fun i hi => rowLen_zerosMat sizek i hi,
    fun i hi j hj => getE_zerosMat sizek i j hi hj,
    by simp [initialize_grid, zerosMat],
    fun i hi => rowLen_zerosMat sizek i hi,
    fun i hi j hj => getE_zerosMat sizek i j hi hj⟩

/-- Witness for C7 at `sizek = 2`, `betafirm = 96/100`. -/
theorem initialize_grid_shapes_and_zero_witness :
    ((initialize_grid 2 (96/100)).1).length = 2 ∧
    (∀ j < 2, getV (initialize_grid 2 (96/100)).1 j = 0) ∧
    ((initialize_grid 2 (96/100)).2.1).length = 2 ∧
    (∀ i < 2, rowLen (initialize_grid 2 (96/100)).2.1 i = 2) ∧
    (∀ i < 2, ∀ j < 2, getE (initialize_grid 2 (96/100)).2.1 i j = 0) ∧
    ((initialize_grid 2 (96/100)).2.2).length = 2 ∧
    (∀ i < 2, rowLen (initialize_grid 2 (96/100)).2.2 i = 2) ∧
    (∀ i < 2, ∀ j < 2, getE (initialize_grid 2 (96/100)).2.2 i j = 0) :=
  initialize_grid_shapes_and_zero 2 (96/100) (by norm_num)

/-- C8: calling any of the three update functions twice with the same inputs,
each call on a freshly zeroed output buffer, yields the same result matrix both
times. -/
theorem updates_deterministic (V : Vec) (e : Mat) (betafirm : ℚ) (sizek : Nat)
    (Vmat1 Vmat2 : Mat) (h1 : Vmat1 = zerosMat sizek) (h2 : Vmat2 = zerosMat sizek) :
    naive_update V e betafirm sizek Vmat1 = naive_update V e betafirm sizek Vmat2 ∧
    VFI_loop V e betafirm sizek Vmat1 = VFI_loop V e betafirm sizek Vmat2 ∧
    vectorized_update V e betafirm sizek = vectorized_update V e betafirm sizek := by
  subst h1
  subst h2
  exact ⟨rfl, rfl, rfl⟩

/-- Witness for C8 at `sizek = 1`, `V = [2]`, `e = [[5]]`, `betafirm = 1/2`. -/
theorem updates_deterministic_witness :
    naive_update [2] [[5]] (1/2) 1 (zerosMat 1) = naive_update [2] [[5]] (1/2) 1 (zerosMat 1) ∧
    VFI_loop [2] [[5]] (1/2) 1 (zerosMat 1) = VFI_loop [2] [[5]] (1/2) 1 (zerosMat 1) ∧
    vectorized_update [2] [[5]] (1/2) 1 = vectorized_update [2] [[5]] (1/2) 1 :=
  updates_deterministic [2] [[5]] (1/2) 1 (zerosMat 1) (zerosMat 1) rfl rfl

/-- C9: on well-formed inputs the result of `VFI_loop` does not depend on the
initial contents of the output buffer: any two buffers of the correct shape
give equal results, because every entry is overwritten. -/
theorem VFI_loop_independent_of_buffer (V : Vec) (e : Mat) (betafirm : ℚ) (sizek : Nat)
    (Vmat1 Vmat2 : Mat) (h1 : Vmat1.length = sizek)
    (h1r : ∀ i < sizek, rowLen Vmat1 i = sizek) (h2 : Vmat2.length = sizek)
    (h2r : ∀ i < sizek, rowLen Vmat2 i = sizek) :
    VFI_loop V e betafirm sizek Vmat1 = VFI_loop V e betafirm sizek Vmat2 := by
  rw [VFI_loop_eq_spec V e betafirm sizek Vmat1 h1 h1r,
    VFI_loop_eq_spec V e betafirm sizek Vmat2 h2 h2r]

/-- Witness for C9 at `sizek = 1` with buffers `[[7]]` and `[[0]]`. -/
theorem VFI_loop_independent_of_buffer_witness :
    VFI_loop [2] [[5]] (1/2) 1 [[7]] = VFI_loop [2] [[5]] (1/2) 1 [[0]] :=
  VFI_loop_independent_of_buffer [2] [[5]] (1/2) 1 [[7]] [[0]] rfl
    (by intro i hi; interval_cases i; rfl) rfl (by intro i hi; interval_cases i; rfl)

/-- C10: for `sizek = 0` with empty arrays, the loop performs zero iterations
and returns the empty buffer unchanged without any error. -/
theorem VFI_loopE_empty (betafirm : ℚ) : VFI_loopE [] [] betafirm 0 [] = some [] := rfl

end DPPwNumba
